import Mathlib

/-!
Verification of the resumable paginated ingestion core of the
Steam_Review_Analytics repository.

The embedding models, faithfully to the Python source:
  * `src/ingest_steam/client.py` — `SteamReviewsClient._get` (retry/backoff
    loop), `SteamReviewsClient.iter_reviews` (cursor pagination driver) and
    the module-level `chunk` helper (identical in
    `src/ingest_trakt/client.py`);
  * `src/pipelines/steam_reviews_poc.py` — `compute_hash`,
    `parse_review_timestamp`, `insert_into_bronze`, `record_watermark` and
    `ingest_reviews`.

Python records (JSON payloads) are modelled by the inductive `Jso`; DuckDB
tables are modelled as append-only Lean lists of rows; wall-clock timestamps
are passed in as explicit parameters; machine floats of the retry policy are
modelled as rationals.
-/

set_option linter.unusedVariables false

/-- JSON-like values, modelling the Python objects carried in review
records: `null` is the Python `None` object, numbers are the epoch-second
integers carried by review payloads, and objects are association lists in
insertion order (mirroring Python dict order). -/
inductive Jso where
  | null : Jso
  | bool (b : Bool) : Jso
  | num (n : Int) : Jso
  | str (s : String) : Jso
  | arr (xs : List Jso) : Jso
  | obj (kvs : List (String × Jso)) : Jso

/-- A fetched record: a Python dict from field name to value, in insertion
order (spec §3 "Record": an opaque mapping of field name to value). -/
abbrev Record : Type := List (String × Jso)

/-- Python truthiness `bool(v)` of a JSON-like value. -/
def Jso.truthy : Jso → Bool
  | .null => false
  | .bool b => b
  | .num n => n != 0
  | .str s => s != ""
  | .arr xs => !xs.isEmpty
  | .obj kvs => !kvs.isEmpty

/-- `record.get(k)` followed by the Python `is not None` convention: `none`
models Python `None`, returned both when the key is missing and when the
stored value is JSON null (the Python `None` object). -/
def Record.pyGet (r : Record) (k : String) : Option Jso :=
  match List.lookup k r with
  | some .null => none
  | some v => some v
  | none => none

/-- Truthiness of `record.get(k)` (Python `if record.get(k): ...`):
a missing key and a `None` value are falsy, otherwise `bool(value)`. -/
def Record.pyGetTruthy (r : Record) (k : String) : Bool :=
  match r.pyGet k with
  | some v => v.truthy
  | none => false

/-- Python dict assignment `d[k] = v`: replace the value at an existing key
in place, otherwise append the new binding at the end. -/
def Record.set (r : Record) (k : String) (v : Jso) : Record :=
  match r with
  | [] => [(k, v)]
  | (k0, v0) :: rest =>
    if k0 = k then (k, v) :: rest else (k0, v0) :: Record.set rest k v

/-- An HTTP response as observed by the retry loop of `_get`: its status
code and its parsed `Retry-After` header.  `retryAfter = none` models an
absent (or empty, hence Python-falsy) header; `some q` models a header that
`float(...)` parses to `q` (floats are modelled as rationals). -/
structure HttpResponse where
  status : Nat
  retryAfter : Option ℚ

/-- Effective wait before a retry in `_get`
(`src/ingest_steam/client.py` line 60, `src/ingest_trakt/client.py` line 62):
`float(retry_after or (self.settings.backoff_seconds * attempt))` — the
server-provided `Retry-After` when present, else `backoff_seconds` times the
current attempt number (linear backoff). -/
def waitSeconds (backoff : ℚ) (attempt : Nat) (r : HttpResponse) : ℚ :=
  match r.retryAfter with
  | some q => q
  | none => backoff * attempt

/-- Observable outcome of one call to `_get`: `requests` counts HTTP GETs
issued, `sleeps` lists the waits performed in order, and `returned = false`
means the call raised via `raise_for_status` instead of returning. -/
structure GetResult where
  requests : Nat
  sleeps : List ℚ
  returned : Bool

/-- The `while True` retry loop of `SteamReviewsClient._get`
(`src/ingest_steam/client.py` lines 51-71; `TraktClient._get`,
`src/ingest_trakt/client.py` lines 52-73, is the same loop), entered having
already made `attempt` attempts: issue attempt `attempt + 1`; on a 429 with
`attempt + 1 ≤ max_retries`, sleep `waitSeconds` and loop; otherwise call
`raise_for_status` (which raises exactly when the status is an error code,
`≥ 400`) and return the response. -/
def getLoop (resp : Nat → HttpResponse) (maxRetries : Nat) (backoff : ℚ)
    (attempt : Nat) : GetResult :=
  if h : (resp (attempt + 1)).status = 429 ∧ attempt + 1 ≤ maxRetries then
    let rest := getLoop resp maxRetries backoff (attempt + 1)
    ⟨rest.requests + 1,
     waitSeconds backoff (attempt + 1) (resp (attempt + 1)) :: rest.sleeps,
     rest.returned⟩
  else
    ⟨1, [], decide ((resp (attempt + 1)).status < 400)⟩
termination_by maxRetries + 1 - attempt
decreasing_by omega

/-- `SteamReviewsClient._get` / `TraktClient._get`, started at attempt count
zero, run against the response stream `resp` (where `resp n` is the response
to the `n`-th request issued). -/
def client_get (resp : Nat → HttpResponse) (maxRetries : Nat) (backoff : ℚ) :
    GetResult :=
  getLoop resp maxRetries backoff 0

theorem getLoop_rate_limited (resp : Nat → HttpResponse) (maxRetries : Nat)
    (backoff : ℚ) (h429 : ∀ n, (resp n).status = 429) :
    ∀ n attempt, attempt + n = maxRetries →
      getLoop resp maxRetries backoff attempt =
        ⟨n + 1,
         (List.range n).map (fun i =>
           waitSeconds backoff (attempt + i + 1) (resp (attempt + i + 1))),
         false⟩ := by
  intro n
  induction n with
  | zero =>
    intro attempt ha
    rw [getLoop, dif_neg (by rw [h429]; omega)]
    simp [h429 (attempt + 1)]
  | succ n ih =>
    intro attempt ha
    rw [getLoop, dif_pos ⟨h429 (attempt + 1), by omega⟩]
    rw [ih (attempt + 1) (by omega)]
    have hidx : ∀ i : Nat, attempt + 1 + i + 1 = attempt + (i + 1) + 1 := by
      omega
    simp only [List.range_succ_eq_map, List.map_cons, List.map_map,
      Function.comp, hidx]
    rfl

/-- C3: with `max_retries = R` against an endpoint that answers HTTP 429 to
every request, `_get` issues exactly `R + 1` HTTP requests (the initial
attempt plus `R` retries) and then raises instead of returning. -/
theorem client_get_retry_exhaustion (resp : Nat → HttpResponse)
    (maxRetries : Nat) (backoff : ℚ)
    (h429 : ∀ n, (resp n).status = 429) :
    (client_get resp maxRetries backoff).requests = maxRetries + 1 ∧
    (client_get resp maxRetries backoff).returned = false := by
  unfold client_get
  rw [getLoop_rate_limited resp maxRetries backoff h429 maxRetries 0 (by omega)]
  exact ⟨rfl, rfl⟩

/-- C3 witness: `max_retries = 2` against an always-429 endpoint issues
exactly 3 requests and raises. -/
theorem client_get_retry_exhaustion_witness :
    (client_get (fun _ => ⟨429, none⟩) 2 1).requests = 3 ∧
    (client_get (fun _ => ⟨429, none⟩) 2 1).returned = false :=
  client_get_retry_exhaustion (fun _ => ⟨429, none⟩) 2 1 (fun _ => rfl)

/-- C4: in a run whose responses are all rate-limited, the wait performed
after the `i`-th request (attempt number `i + 1`) is the server-provided
`Retry-After` of that response when present, and otherwise
`backoff_seconds * (i + 1)` — linear, not exponential, in the attempt
number. -/
theorem client_get_wait_policy (resp : Nat → HttpResponse)
    (maxRetries : Nat) (backoff : ℚ)
    (h429 : ∀ n, (resp n).status = 429) :
    (client_get resp maxRetries backoff).sleeps =
      (List.range maxRetries).map (fun i =>
        waitSeconds backoff (i + 1) (resp (i + 1))) := by
  unfold client_get
  rw [getLoop_rate_limited resp maxRetries backoff h429 maxRetries 0 (by omega)]
  simp

/-- Response stream for the C4 witness: every request is answered 429, and
the first response carries `Retry-After: 3`. -/
def always429WithHeader : Nat → HttpResponse :=
  fun n => if n = 1 then ⟨429, some 3⟩ else ⟨429, none⟩

/-- C4 witness: with `Retry-After: 3` on the first response and a configured
backoff of `1/10`, the first wait is exactly the server's 3 seconds (hence
at least 3 seconds), and the second wait is `backoff * 2`. -/
theorem client_get_wait_policy_witness :
    (client_get always429WithHeader 2 (1 / 10)).sleeps = [3, 1 / 5] ∧
    (3 : ℚ) ≤ (client_get always429WithHeader 2 (1 / 10)).sleeps.getD 0 0 := by
  have h := client_get_wait_policy always429WithHeader 2 (1 / 10)
    (fun n => by unfold always429WithHeader; split <;> rfl)
  rw [h]
  norm_num [always429WithHeader, waitSeconds, List.range_succ]

/-- Accumulator-passing form of the generator loop of `chunk` in
`src/ingest_steam/client.py` (and, verbatim identical, in
`src/ingest_trakt/client.py`): `batch` is the list being accumulated; a
batch reaching `size` is yielded and reset, and a non-empty trailing batch
is yielded after the input is exhausted. -/
def chunkAux {α : Type} (size : Nat) : List α → List α → List (List α)
  | [], batch => if batch.isEmpty then [] else [batch]
  | x :: xs, batch =>
    if (batch ++ [x]).length = size then (batch ++ [x]) :: chunkAux size xs []
    else chunkAux size xs (batch ++ [x])

/-- `chunk(iterable, size)` from `src/ingest_steam/client.py` line 152 /
`src/ingest_trakt/client.py` line 131: yield successive batches of `size`
items from the iterable, with a final short batch if items remain. -/
def chunk {α : Type} (xs : List α) (size : Nat) : List (List α) :=
  chunkAux size xs []

theorem chunkAux_flatten {α : Type} (size : Nat) (xs : List α) :
    ∀ batch : List α, (chunkAux size xs batch).flatten = batch ++ xs := by
  induction xs with
  | nil =>
    intro batch
    by_cases h : batch.isEmpty
    · simp [chunkAux, h, List.isEmpty_iff.mp h]
    · simp [chunkAux, h]
  | cons x xs ih =>
    intro batch
    simp only [chunkAux]
    split
    · simp [ih]
    · simp [ih]

theorem chunkAux_full {α : Type} (size : Nat) (hsize : 1 ≤ size)
    (xs : List α) :
    ∀ batch : List α, batch.length < size →
      ∀ i, i + 1 < (chunkAux size xs batch).length →
        ((chunkAux size xs batch).getD i []).length = size := by
  induction xs with
  | nil =>
    intro batch hb i hi
    simp only [chunkAux] at hi
    split at hi <;> simp at hi
  | cons x xs ih =>
    intro batch hb i hi
    simp only [chunkAux] at hi ⊢
    by_cases h : (batch ++ [x]).length = size
    · rw [if_pos h] at hi ⊢
      match i with
      | 0 => simpa using h
      | i + 1 =>
        simp only [List.getD_cons_succ]
        have hlen : i + 1 < (chunkAux size xs []).length := by
          simp only [List.length_cons] at hi; omega
        exact ih [] (by simpa using hsize) i hlen
    · rw [if_neg h] at hi ⊢
      exact ih (batch ++ [x]) (by simp at h ⊢; omega) i hi

theorem chunkAux_ne_nil {α : Type} (size : Nat) (xs : List α) :
    ∀ batch : List α, ∀ b ∈ chunkAux size xs batch, b ≠ [] := by
  induction xs with
  | nil =>
    intro batch b hb
    simp only [chunkAux] at hb
    split at hb
    · simp at hb
    case isFalse h =>
      simp only [List.mem_singleton] at hb
      subst hb
      simpa [List.isEmpty_iff] using h
  | cons x xs ih =>
    intro batch b hb
    simp only [chunkAux] at hb
    split at hb
    · rcases List.mem_cons.mp hb with h | h
      · subst h; simp
      · exact ih [] b h
    · exact ih (batch ++ [x]) b hb

/-- C10: for every finite input sequence `xs` and chunk size `n ≥ 1`,
concatenating the batches yielded by `chunk xs n` in order gives back `xs`,
every yielded batch before the last has length exactly `n`, and no yielded
batch is empty. -/
theorem chunk_round_trip {α : Type} (xs : List α) (n : Nat) (hn : 1 ≤ n) :
    (chunk xs n).flatten = xs ∧
    (∀ i, i + 1 < (chunk xs n).length → ((chunk xs n).getD i []).length = n) ∧
    (∀ b ∈ chunk xs n, b ≠ []) := by
  refine ⟨?_, ?_, ?_⟩
  · simpa using chunkAux_flatten n xs []
  · intro i hi
    exact chunkAux_full n hn xs [] (by simpa using hn) i hi
  · exact chunkAux_ne_nil n xs []

/-- C10 witness: in-concrete the three `chunk` guarantees at `xs = [1..5]`,
`n = 2`. -/
theorem chunk_round_trip_witness :
    (chunk [1, 2, 3, 4, 5] 2).flatten = [1, 2, 3, 4, 5] ∧
    (∀ i, i + 1 < (chunk [1, 2, 3, 4, 5] 2).length →
      ((chunk [1, 2, 3, 4, 5] 2).getD i []).length = 2) ∧
    (∀ b ∈ chunk [1, 2, 3, 4, 5] 2, b ≠ []) :=
  chunk_round_trip [1, 2, 3, 4, 5] 2 (by decide)

/-- One parsed response of the Steam `appreviews` endpoint as consumed by
`iter_reviews`: the `success` field of the envelope, the `reviews` array
(`payload.get("reviews", [])`) and the next-cursor field
(`payload.get("cursor")`, `none` when missing). -/
structure SteamPage where
  success : Option Jso
  reviews : List Record
  cursor : Option String

/-- The Python comparison `payload.get("success") == 1` (in Python
`True == 1` holds, and a missing field compares unequal). -/
def pyEqOne : Option Jso → Bool
  | some (.num 1) => true
  | some (.bool true) => true
  | _ => false

/-- The schema gate of `iter_reviews` lines 112-114: with a validator
supplied, `schema.validate(review)` is called on every raw item of the
fetched page and raises on the first invalid one.  A validator is modelled
as a Boolean predicate; `true` means the item validates. -/
def schemaRejects (schema : Option (Record → Bool)) (reviews : List Record) :
    Bool :=
  match schema with
  | some v => reviews.any (fun r => !(v r))
  | none => false

/-- In-flight enrichment of a yielded review (`iter_reviews` lines 117-121):
`review["app_id"] = str(app_id)`, `review["page"] = page`,
`review["cursor"] = cursor`, `review["fetched_at"] = ...` — the wall-clock
fetch time is abstracted into the parameter `now`. -/
def enrichReview (appId : String) (page : Nat) (cursor : String)
    (now : String) (review : Record) : Record :=
  (((review.set "app_id" (.str appId)).set "page"
      (.num (page : Int))).set "cursor" (.str cursor)).set "fetched_at"
    (.str now)

/-- The page-cap test of `iter_reviews` line 128:
`max_pages is not None and page > max_pages`. -/
def pageCapReached (maxPages : Option Nat) (page : Nat) : Bool :=
  match maxPages with
  | some mp => page > mp
  | none => false

/-- Observable outcome of one `iter_reviews` generator run: the records
yielded in order, the number of page requests issued, and whether the run
ended by raising a schema-validation error (`raised = true`) rather than by
a graceful `break`. -/
structure IterResult where
  emitted : List Record
  pagesFetched : Nat
  raised : Bool

/-- The `while True` pagination loop of `SteamReviewsClient.iter_reviews`
(`src/ingest_steam/client.py` lines 89-129), run against the stream `pages`
of parsed responses: the head of `pages` answers the next page request.
The loop body in source order: fetch; `break` on `success != 1`; validate
every raw item against the schema (raising aborts the generator); `break`
on an empty item list; enrich and yield each item; `break` when the next
cursor is falsy or equal to the current cursor (stall guard); advance
cursor and page; `break` when the page cap is exceeded.  An exhausted
`pages` list models the end of the modelled response prefix (a real server
always answers, so claims constrain the head of `pages`). -/
def iterReviews (schema : Option (Record → Bool)) (maxPages : Option Nat)
    (appId : String) (now : String) :
    List SteamPage → String → Nat → IterResult
  | [], _, _ => ⟨[], 0, false⟩
  | p :: rest, cursor, page =>
    if !pyEqOne p.success then ⟨[], 1, false⟩
    else if schemaRejects schema p.reviews then ⟨[], 1, true⟩
    else if p.reviews.isEmpty then ⟨[], 1, false⟩
    else
      let emitted := p.reviews.map (enrichReview appId page cursor now)
      match p.cursor with
      | none => ⟨emitted, 1, false⟩
      | some nc =>
        if nc = "" ∨ nc = cursor then ⟨emitted, 1, false⟩
        else if pageCapReached maxPages (page + 1) then ⟨emitted, 1, false⟩
        else
          let r := iterReviews schema maxPages appId now rest nc (page + 1)
          ⟨emitted ++ r.emitted, r.pagesFetched + 1, r.raised⟩

/-- `SteamReviewsClient.iter_reviews` started at the beginning of a stream
or at a resume state (`cursor = "*"`, `page = 1` when `resume = none`). -/
def iter_reviews (pages : List SteamPage) (appId : String) (now : String)
    (schema : Option (Record → Bool)) (maxPages : Option Nat)
    (resume : Option (String × Nat)) : IterResult :=
  iterReviews schema maxPages appId now pages
    (match resume with | some s => s.1 | none => "*")
    (match resume with | some s => s.2 | none => 1)

/-- C9: when a response's envelope does not report `success == 1`,
`iter_reviews` terminates the stream at that page gracefully — it raises no
exception, emits no record from that response, and issues no further page
request (exactly the one request that produced this response is counted). -/
theorem iter_reviews_unsuccessful_envelope (p : SteamPage)
    (rest : List SteamPage) (schema : Option (Record → Bool))
    (maxPages : Option Nat) (appId now cursor : String) (page : Nat)
    (h : pyEqOne p.success = false) :
    iterReviews schema maxPages appId now (p :: rest) cursor page =
      ⟨[], 1, false⟩ := by
  unfold iterReviews
  rw [h]
  rfl

/-- C9 witness: a page whose envelope carries `success = 0` (even one with
items and a fresh cursor, followed by more pages) yields nothing, raises
nothing, and stops after that single request. -/
theorem iter_reviews_unsuccessful_envelope_witness :
    iterReviews none none "620" "T0" 
      [⟨some (.num 0), [[("recommendationid", .str "r1")]], some "abc"⟩,
       ⟨some (.num 1), [[("recommendationid", .str "r2")]], none⟩]
      "*" 1 = ⟨[], 1, false⟩ :=
  iter_reviews_unsuccessful_envelope
    ⟨some (.num 0), [[("recommendationid", .str "r1")]], some "abc"⟩
    [⟨some (.num 1), [[("recommendationid", .str "r2")]], none⟩]
    none none "620" "T0" "*" 1 rfl

/-- C2: when the cursor returned by a page is absent (Python-falsy) or
identical to the cursor used to fetch that page, `iter_reviews` terminates
after processing that page: it emits that page's records exactly once
(enriched, in order) and issues no further page request, for any
continuation of the response stream. -/
theorem iter_reviews_stall_guard (p : SteamPage) (rest : List SteamPage)
    (schema : Option (Record → Bool)) (maxPages : Option Nat)
    (appId now cursor : String) (page : Nat)
    (hsucc : pyEqOne p.success = true)
    (hschema : schemaRejects schema p.reviews = false)
    (hitems : p.reviews.isEmpty = false)
    (hstall : p.cursor = none ∨ p.cursor = some "" ∨ p.cursor = some cursor) :
    iterReviews schema maxPages appId now (p :: rest) cursor page =
      ⟨p.reviews.map (enrichReview appId page cursor now), 1, false⟩ := by
  unfold iterReviews
  rw [hsucc, hschema, hitems]
  rcases hstall with h | h | h <;> rw [h] <;> simp

/-- C2 witness: a first page fetched with cursor `"*"` whose response
returns the same cursor `"*"` again terminates after that page, emitting
its two records exactly once, with no request for the following page. -/
theorem iter_reviews_stall_guard_witness :
    iterReviews none none "620" "T0"
      [⟨some (.num 1),
        [[("recommendationid", .str "r1")], [("recommendationid", .str "r2")]],
        some "*"⟩,
       ⟨some (.num 1), [[("recommendationid", .str "r3")]], some "abc"⟩]
      "*" 1 =
      ⟨[[("recommendationid", .str "r1")],
        [("recommendationid", .str "r2")]].map (enrichReview "620" 1 "*" "T0"),
       1, false⟩ :=
  iter_reviews_stall_guard
    ⟨some (.num 1),
     [[("recommendationid", .str "r1")], [("recommendationid", .str "r2")]],
     some "*"⟩
    [⟨some (.num 1), [[("recommendationid", .str "r3")]], some "abc"⟩]
    none none "620" "T0" "*" 1 rfl rfl rfl (Or.inr (Or.inr rfl))

/-- C7: with a schema validator supplied, every raw item of a fetched page
is validated before any item of that page is enriched or yielded; a page
containing an invalid item makes the generator raise, emitting none of that
page's records — the page is never partially emitted, and no further page
is requested. -/
theorem iter_reviews_schema_violation (p : SteamPage) (rest : List SteamPage)
    (v : Record → Bool) (maxPages : Option Nat)
    (appId now cursor : String) (page : Nat)
    (hsucc : pyEqOne p.success = true)
    (hbad : p.reviews.any (fun r => !(v r)) = true) :
    iterReviews (some v) maxPages appId now (p :: rest) cursor page =
      ⟨[], 1, true⟩ := by
  unfold iterReviews
  rw [hsucc]
  simp only [Bool.not_true, Bool.false_eq_true, if_false, schemaRejects, hbad,
    if_true]

/-- C7 witness: a page whose second item lacks `recommendationid` fails a
validator requiring that key; the whole page (including its valid first
item) is withheld and the generator raises after the single request. -/
theorem iter_reviews_schema_violation_witness :
    iterReviews (some (fun r => r.pyGetTruthy "recommendationid")) none
      "620" "T0"
      [⟨some (.num 1),
        [[("recommendationid", .str "r1")], [("votes_up", .num 7)]],
        some "abc"⟩,
       ⟨some (.num 1), [[("recommendationid", .str "r2")]], none⟩]
      "*" 1 = ⟨[], 1, true⟩ :=
  iter_reviews_schema_violation
    ⟨some (.num 1),
     [[("recommendationid", .str "r1")], [("votes_up", .num 7)]],
     some "abc"⟩
    [⟨some (.num 1), [[("recommendationid", .str "r2")]], none⟩]
    (fun r => r.pyGetTruthy "recommendationid") none "620" "T0" "*" 1
    rfl (by rfl)

/-- Lowercase hexadecimal digit, for JSON escapes and hash digests. -/
def hexDigit (n : Nat) : Char :=
  if n < 10 then Char.ofNat (48 + n) else Char.ofNat (87 + n)

/-- `json.dumps` escaping of one character inside a string literal (with
`ensure_ascii=False`): escape the quote, the backslash and control
characters, and pass every other character through unchanged. -/
def jsonEscapeChar (c : Char) : String :=
  if c = Char.ofNat 34 then "\\\""
  else if c = Char.ofNat 92 then "\\\\"
  else if c = Char.ofNat 10 then "\\n"
  else if c = Char.ofNat 9 then "\\t"
  else if c = Char.ofNat 13 then "\\r"
  else if c = Char.ofNat 8 then "\\b"
  else if c = Char.ofNat 12 then "\\f"
  else if c.toNat < 32 then
    "\\u00" ++ String.mk [hexDigit (c.toNat / 16), hexDigit (c.toNat % 16)]
  else String.singleton c

/-- `json.dumps` rendering of a Python string (`ensure_ascii=False`). -/
def jsonQuote (s : String) : String :=
  "\"" ++ String.join (s.data.map jsonEscapeChar) ++ "\""

/-- Join rendered items with the default `json.dumps` item separator. -/
def joinSep : List String → String
  | [] => ""
  | [x] => x
  | x :: y :: xs => x ++ ", " ++ joinSep (y :: xs)

mutual

/-- `json.dumps(v, sort_keys=True, ensure_ascii=False)` with the default
separators: object entries are rendered in ascending key order (each value
is serialized first; sorting by key commutes with serializing values). -/
def Jso.dumps : Jso → String
  | .null => "null"
  | .bool true => "true"
  | .bool false => "false"
  | .num n => toString n
  | .str s => jsonQuote s
  | .arr xs => "[" ++ joinSep (dumpsList xs) ++ "]"
  | .obj kvs =>
    "\x7b" ++
      joinSep ((List.insertionSort (fun a b => a.1 ≤ b.1)
        (dumpsEntries kvs)).map (fun e => jsonQuote e.1 ++ ": " ++ e.2)) ++
      "\x7d"

/-- Serialize each element of a JSON array, in order. -/
def dumpsList : List Jso → List String
  | [] => []
  | x :: xs => Jso.dumps x :: dumpsList xs

/-- Serialize the value of each object entry, keeping its key. -/
def dumpsEntries : List (String × Jso) → List (String × String)
  | [] => []
  | (k, v) :: kvs => (k, Jso.dumps v) :: dumpsEntries kvs

end

/-- UTF-8 encoding of one character. -/
def utf8EncodeChar (c : Char) : List Nat :=
  let n := c.toNat
  if n < 128 then [n]
  else if n < 2048 then [192 + n / 64, 128 + n % 64]
  else if n < 65536 then
    [224 + n / 4096, 128 + (n / 64) % 64, 128 + n % 64]
  else
    [240 + n / 262144, 128 + (n / 4096) % 64, 128 + (n / 64) % 64,
     128 + n % 64]

/-- `s.encode("utf-8")` as a list of bytes. -/
def utf8Encode (s : String) : List Nat :=
  (s.data.map utf8EncodeChar).flatten

/-- Truncation to a 32-bit word. -/
def w32 (n : Nat) : Nat := n % 4294967296

/-- Right rotation of a 32-bit word by `n` bits. -/
def rotr32 (n x : Nat) : Nat := w32 ((x >>> n) + (x % 2 ^ n) * 2 ^ (32 - n))

/-- SHA-256 message-schedule sigma functions (FIPS 180-4 §4.1.2). -/
def smallSigma0 (x : Nat) : Nat :=
  (rotr32 7 x) ^^^ (rotr32 18 x) ^^^ (x >>> 3)

/-- SHA-256 message-schedule sigma function. -/
def smallSigma1 (x : Nat) : Nat :=
  (rotr32 17 x) ^^^ (rotr32 19 x) ^^^ (x >>> 10)

/-- SHA-256 compression Sigma function. -/
def bigSigma0 (x : Nat) : Nat :=
  (rotr32 2 x) ^^^ (rotr32 13 x) ^^^ (rotr32 22 x)

/-- SHA-256 compression Sigma function. -/
def bigSigma1 (x : Nat) : Nat :=
  (rotr32 6 x) ^^^ (rotr32 11 x) ^^^ (rotr32 25 x)

/-- The 64 SHA-256 round constants (FIPS 180-4 §4.2.2), in decimal. -/
def shaK : List Nat :=
  [1116352408, 1899447441, 3049323471, 3921009573,
   961987163, 1508970993, 2453635748, 2870763221,
   3624381080, 310598401, 607225278, 1426881987,
   1925078388, 2162078206, 2614888103, 3248222580,
   3835390401, 4022224774, 264347078, 604807628,
   770255983, 1249150122, 1555081692, 1996064986,
   2554220882, 2821834349, 2952996808, 3210313671,
   3336571891, 3584528711, 113926993, 338241895,
   666307205, 773529912, 1294757372, 1396182291,
   1695183700, 1986661051, 2177026350, 2456956037,
   2730485921, 2820302411, 3259730800, 3345764771,
   3516065817, 3600352804, 4094571909, 275423344,
   430227734, 506948616, 659060556, 883997877,
   958139571, 1322822218, 1537002063, 1747873779,
   1955562222, 2024104815, 2227730452, 2361852424,
   2428436474, 2756734187, 3204031479, 3329325298]

/-- The SHA-256 initial hash value (FIPS 180-4 §5.3.3), in decimal. -/
def shaH0 : List Nat :=
  [1779033703, 3144134277, 1013904242, 2773480762,
   1359893119, 2600822924, 528734635, 1541459225]

/-- Big-endian decomposition of `n` into `k` bytes. -/
def beBytes (k n : Nat) : List Nat :=
  match k with
  | 0 => []
  | k + 1 => beBytes k (n / 256) ++ [n % 256]

/-- SHA-256 message padding: append `0x80`, zero bytes up to 56 mod 64,
then the message bit length as an 8-byte big-endian integer. -/
def shaPad (msg : List Nat) : List Nat :=
  msg ++ [128] ++ List.replicate ((64 - (msg.length + 9) % 64) % 64) 0 ++
    beBytes 8 (msg.length * 8)

/-- Big-endian 32-bit word from four bytes. -/
def beWord : List Nat → Nat
  | [a, b, c, d] => ((a * 256 + b) * 256 + c) * 256 + d
  | _ => 0

/-- Extend the 16 words of a block to the 64-word message schedule. -/
def shaSchedule (ws : List Nat) : List Nat :=
  (List.range 48).foldl
    (fun acc _ =>
      acc ++ [w32 (smallSigma1 (acc.getD (acc.length - 2) 0) +
        acc.getD (acc.length - 7) 0 +
        smallSigma0 (acc.getD (acc.length - 15) 0) +
        acc.getD (acc.length - 16) 0)])
    ws

/-- One SHA-256 compression round on the working state `[a,b,c,d,e,f,g,h]`,
consuming one (schedule word, round constant) pair. -/
def shaRound (st : List Nat) (wk : Nat × Nat) : List Nat :=
  match st with
  | [a, b, c, d, e, f, g, h] =>
    let ch := (e &&& f) ^^^ ((4294967295 - e) &&& g)
    let maj := (a &&& b) ^^^ (a &&& c) ^^^ (b &&& c)
    let t1 := w32 (h + bigSigma1 e + ch + wk.1 + wk.2)
    let t2 := w32 (bigSigma0 a + maj)
    [w32 (t1 + t2), a, b, c, w32 (d + t1), e, f, g]
  | st => st

/-- Process one 64-byte block into the running SHA-256 state. -/
def shaBlock (h : List Nat) (block : List Nat) : List Nat :=
  let ws := shaSchedule ((chunk block 4).map beWord)
  let st := (ws.zip shaK).foldl shaRound h
  (h.zip st).map (fun p => w32 (p.1 + p.2))

/-- Lowercase 8-hex-digit rendering of a 32-bit word. -/
def wordHex (n : Nat) : String :=
  String.mk [hexDigit (n / 16 ^ 7 % 16), hexDigit (n / 16 ^ 6 % 16),
    hexDigit (n / 16 ^ 5 % 16), hexDigit (n / 16 ^ 4 % 16),
    hexDigit (n / 16 ^ 3 % 16), hexDigit (n / 16 ^ 2 % 16),
    hexDigit (n / 16 % 16), hexDigit (n % 16)]

/-- `hashlib.sha256(data).hexdigest()`: the SHA-256 digest of a byte
sequence, rendered as a lowercase hexadecimal string. -/
def sha256hex (msg : List Nat) : String :=
  String.join (((chunk (shaPad msg) 64).foldl shaBlock shaH0).map wordHex)

/-- `compute_hash` (`src/pipelines/steam_reviews_poc.py` lines 204-207):
the SHA-256 hex digest of
`json.dumps(payload, sort_keys=True, ensure_ascii=False).encode("utf-8")`. -/
def compute_hash (payload : Record) : String :=
  sha256hex (utf8Encode (Jso.dumps (Jso.obj payload)))

theorem dumpsEntries_eq_map (kvs : List (String × Jso)) :
    dumpsEntries kvs = kvs.map (fun kv => (kv.1, Jso.dumps kv.2)) := by
  induction kvs with
  | nil => rfl
  | cons kv rest ih =>
    cases kv
    simp [dumpsEntries, ih]

theorem insertionSort_key_eq_of_perm {β : Type} (l1 l2 : List (String × β))
    (hperm : l1.Perm l2) (hnodup : (l1.map Prod.fst).Nodup) :
    List.insertionSort (fun a b => a.1 ≤ b.1) l1 =
      List.insertionSort (fun a b => a.1 ≤ b.1) l2 := by
  haveI htot : IsTotal (String × β) (fun a b => a.1 ≤ b.1) :=
    ⟨fun a b => le_total a.1 b.1⟩
  haveI htr : IsTrans (String × β) (fun a b => a.1 ≤ b.1) :=
    ⟨fun a b c hab hbc => le_trans hab hbc⟩
  haveI hanti : IsAntisymm (String × β) (fun a b => a.1 < b.1) :=
    ⟨fun a b h1 h2 => absurd h2 (not_lt.mpr (le_of_lt h1))⟩
  have hps1 := List.perm_insertionSort (fun a b : String × β => a.1 ≤ b.1) l1
  have hps2 := List.perm_insertionSort (fun a b : String × β => a.1 ≤ b.1) l2
  have hss : (List.insertionSort (fun a b => a.1 ≤ b.1) l1).Perm
      (List.insertionSort (fun a b => a.1 ≤ b.1) l2) :=
    hps1.trans (hperm.trans hps2.symm)
  have hkeyne : ∀ l : List (String × β), l.Perm l1 →
      List.Pairwise (fun a b : String × β => a.1 ≠ b.1) l := by
    intro l hl
    have : (l.map Prod.fst).Nodup := ((hl.map Prod.fst).nodup_iff).mpr hnodup
    exact (List.pairwise_map).mp this
  have hlt : ∀ l : List (String × β),
      l.Sorted (fun a b => a.1 ≤ b.1) →
      List.Pairwise (fun a b : String × β => a.1 ≠ b.1) l →
      l.Sorted (fun a b : String × β => a.1 < b.1) := by
    intro l hle hne
    exact (hle.and hne).imp (fun h => lt_of_le_of_ne h.1 h.2)
  exact List.eq_of_perm_of_sorted hss
    (hlt _ (List.sorted_insertionSort _ l1) (hkeyne _ hps1))
    (hlt _ (List.sorted_insertionSort _ l2) (hkeyne _ (hps2.trans hperm.symm)))

/-- C8: `compute_hash` is determined solely by the record's key-to-value
mapping: two records that are equal as mappings (the same key-value pairs,
in any presentation order, keys unique) produce identical digests — the
digest being the SHA-256 hex digest of the key-sorted, UTF-8-encoded JSON
serialization of the record. -/
theorem compute_hash_deterministic (r1 r2 : Record) (hperm : r1.Perm r2)
    (hnodup : (r1.map Prod.fst).Nodup) :
    compute_hash r1 = compute_hash r2 := by
  unfold compute_hash
  have hdump : Jso.dumps (Jso.obj r1) = Jso.dumps (Jso.obj r2) := by
    simp only [Jso.dumps, dumpsEntries_eq_map]
    rw [insertionSort_key_eq_of_perm
      (r1.map (fun kv => (kv.1, Jso.dumps kv.2)))
      (r2.map (fun kv => (kv.1, Jso.dumps kv.2)))
      (hperm.map _)
      (by simpa [List.map_map, Function.comp] using hnodup)]
  rw [hdump]

/-- C8 witness: the same logical record with its two fields presented in
either order hashes to the same digest. -/
theorem compute_hash_deterministic_witness :
    compute_hash [("b", Jso.num 2), ("a", Jso.str "x")] =
      compute_hash [("a", Jso.str "x"), ("b", Jso.num 2)] :=
  compute_hash_deterministic _ _
    (List.Perm.swap ("a", Jso.str "x") ("b", Jso.num 2) [])
    (by simp)

/-- Python `int(s)` on a string: optional surrounding whitespace and sign,
then decimal digits; any other shape raises `ValueError` (modelled as
`none`). -/
def pyIntOfString (s : String) : Option Int :=
  let t := s.trim
  if t.startsWith "-" then ((t.drop 1).toNat?).map (fun n => -(n : Int))
  else if t.startsWith "+" then ((t.drop 1).toNat?).map (fun n => (n : Int))
  else (t.toNat?).map (fun n => (n : Int))

/-- Python `str(...)` as applied to record field values in the pipeline
(ids and cursors, which are strings or numbers in review payloads;
containers do not occur in those fields and are rendered as JSON here). -/
def Jso.pyStr : Jso → String
  | .null => "None"
  | .bool true => "True"
  | .bool false => "False"
  | .num n => toString n
  | .str s => s
  | .arr xs => Jso.dumps (.arr xs)
  | .obj kvs => Jso.dumps (.obj kvs)

/-- `parse_review_timestamp` (`src/pipelines/steam_reviews_poc.py`
lines 210-217): convert a Steam epoch value to a timestamp when possible.
A `None` value gives `None`; `int(value)` succeeds on integers, booleans
and digit strings, and raises `TypeError`/`ValueError` — caught, giving
`None` — otherwise.  Timestamps are modelled as epoch seconds, so the
`datetime.fromtimestamp` conversion is the identity. -/
def parse_review_timestamp (value : Option Jso) : Option Int :=
  match value with
  | none => none
  | some .null => none
  | some (.num n) => some n
  | some (.bool b) => some (if b then 1 else 0)
  | some (.str s) => pyIntOfString s
  | some (.arr _) => none
  | some (.obj _) => none

/-- One row of the append-only `bronze.steam_reviews_raw` table
(`prepare_bronze_storage`, `src/pipelines/steam_reviews_poc.py`
lines 176-188).  The `payload` column, which stores
`json.dumps(review, ensure_ascii=False)`, is modelled by the review record
itself; timestamps are epoch seconds. -/
structure BronzeRow where
  appid : String
  recommendationid : String
  updated_at : Option Int
  ingested_at : Int
  load_id : String
  hash_payload : String
  cursor : Option String
  payload : Record

/-- `insert_into_bronze` (`src/pipelines/steam_reviews_poc.py`
lines 220-251): resolve `updated_at`, `app_id`, `recommendationid` and
`cursor` from the review; when `app_id` or `recommendationid` is missing
or `None`, return without touching the ledger; otherwise hash the review
and append exactly one row.  The result pairs the ledger after the call
with the Python return value of the function, which is the bare-`return`
`None` on the skip path and the implicit `None` on the insert path
(both modelled as `none`; `some b` would model `return b`). -/
def insert_into_bronze (ledger : List BronzeRow) (review : Record)
    (load_id : String) (ingested_at : Int) :
    List BronzeRow × Option Bool :=
  let updated_at := parse_review_timestamp (review.pyGet "timestamp_updated")
  let cursor := review.pyGet "cursor"
  match (review.pyGet "app_id").map Jso.pyStr, review.pyGet "recommendationid"
    with
  | some a, some rid =>
    (ledger ++ [⟨a, rid.pyStr, updated_at, ingested_at, load_id,
       compute_hash review, cursor.map Jso.pyStr, review⟩], none)
  | _, _ => (ledger, none)

/-- The `Watermark` dataclass (`src/pipelines/steam_reviews_poc.py`
lines 65-71), with timestamps as epoch seconds. -/
structure Watermark where
  app_id : String
  last_cursor : Option String
  max_updated_at : Option Int
  load_id : String
  recorded_at : Int
deriving DecidableEq

/-- `record_watermark` (`src/pipelines/steam_reviews_poc.py`
lines 254-271): append one row to the `bronze.load_watermarks` table. -/
def record_watermark (table : List Watermark) (w : Watermark) :
    List Watermark :=
  table ++ [w]

/-- The running-maximum update of `ingest_reviews` lines 305-307:
`if updated_at and (max_updated_at is None or updated_at > max_updated_at)`
— a `datetime` is always truthy, so the first test is a not-`None` test. -/
def foldMaxUpdated (m : Option Int) (u : Option Int) : Option Int :=
  match u, m with
  | some u, none => some u
  | some u, some mm => if u > mm then some u else some mm
  | none, mm => mm

/-- The loop state of `ingest_reviews` (`src/pipelines/steam_reviews_poc.py`
lines 297-309): the JSONL lines written so far (modelled as the records,
one per line), the record count, the trailing cursor, the running maximum
parseable `timestamp_updated`, and the bronze ledger. -/
structure IngestState where
  written : List Record
  count : Nat
  last_cursor : Option String
  max_updated_at : Option Int
  ledger : List BronzeRow

/-- One iteration of the `for review in review_iterable` loop of
`ingest_reviews` (lines 301-309): write the review's JSONL line, bump the
count, update `last_cursor` when the review's cursor value is truthy, fold
the parsed `timestamp_updated` into the running maximum, and — when a
warehouse connection is present — insert the review into bronze. -/
def ingestStep (conn : Bool) (load_id : String) (ingested_at : Int)
    (st : IngestState) (review : Record) : IngestState :=
  let last_cursor :=
    match review.pyGet "cursor" with
    | some v => if v.truthy then some v.pyStr else st.last_cursor
    | none => st.last_cursor
  let updated_at := parse_review_timestamp (review.pyGet "timestamp_updated")
  let ledger :=
    if conn then (insert_into_bronze st.ledger review load_id ingested_at).1
    else st.ledger
  ⟨st.written ++ [review], st.count + 1, last_cursor,
   foldMaxUpdated st.max_updated_at updated_at, ledger⟩

/-- Result of one `ingest_reviews` run: the final loop state, the Watermark
it emits, and the watermark table after `record_watermark`. -/
structure IngestResult where
  state : IngestState
  watermark : Watermark
  watermarks : List Watermark

/-- `ingest_reviews` (`src/pipelines/steam_reviews_poc.py` lines 274-328),
applied to the `reviews` list that its page iterator yields: fold the loop
body over the yielded records starting from `count = 0`,
`last_cursor = None`, `max_updated_at = None`, then build the `Watermark`
for the run and record it when a warehouse connection is present. -/
def ingest_reviews (reviews : List Record) (app_id : String)
    (load_id : String) (ingested_at : Int) (conn : Bool)
    (ledger0 : List BronzeRow) (wmTable : List Watermark) : IngestResult :=
  let final := reviews.foldl (ingestStep conn load_id ingested_at)
    ⟨[], 0, none, none, ledger0⟩
  let w : Watermark :=
    ⟨app_id, final.last_cursor, final.max_updated_at, load_id, ingested_at⟩
  ⟨final, w, if conn then record_watermark wmTable w else wmTable⟩

theorem foldl_ingestStep_max (conn : Bool) (load_id : String)
    (ingested_at : Int) (reviews : List Record) :
    ∀ st : IngestState,
      (reviews.foldl (ingestStep conn load_id ingested_at) st).max_updated_at
        = reviews.foldl
            (fun m r => foldMaxUpdated m
              (parse_review_timestamp (r.pyGet "timestamp_updated")))
            st.max_updated_at := by
  induction reviews with
  | nil => intro st; rfl
  | cons r rs ih =>
    intro st
    simp only [List.foldl_cons]
    rw [ih]
    rfl

/-- The ledger row `insert_into_bronze` writes for a review that carries
both an `app_id` value `a` and a `recommendationid` value `rid`. -/
def bronzeRowOf (load_id : String) (ingested_at : Int) (r : Record)
    (a rid : Jso) : BronzeRow :=
  ⟨a.pyStr, rid.pyStr, parse_review_timestamp (r.pyGet "timestamp_updated"),
   ingested_at, load_id, compute_hash r, (r.pyGet "cursor").map Jso.pyStr, r⟩

theorem foldl_ingestStep_ledger (load_id : String) (ingested_at : Int)
    (reviews : List Record) :
    ∀ st : IngestState,
      (reviews.foldl (ingestStep true load_id ingested_at) st).ledger
        = st.ledger ++ reviews.filterMap (fun r =>
            match r.pyGet "app_id", r.pyGet "recommendationid" with
            | some a, some rid =>
              some (bronzeRowOf load_id ingested_at r a rid)
            | _, _ => none) := by
  induction reviews with
  | nil => intro st; simp
  | cons r rs ih =>
    intro st
    simp only [List.foldl_cons, List.filterMap_cons]
    rw [ih]
    rcases h1 : r.pyGet "app_id" with _ | a <;>
      rcases h2 : r.pyGet "recommendationid" with _ | rid <;>
      simp [ingestStep, insert_into_bronze, h1, h2, bronzeRowOf]

/-- Modelled from the wording of claim C1, for comparison with the code:
the maximum parseable `timestamp_updated` over only the records actually
written — the running-maximum fold applied to the `updated_at` column of
the written ledger rows. -/
def spec_max_updated_at_of_written (rows : List BronzeRow) : Option Int :=
  rows.foldl (fun m row => foldMaxUpdated m row.updated_at) none

/-- C1 counterexample: with one written record at timestamp 100 and one
record skipped for lacking `recommendationid` at timestamp 200, the
Watermark reports `max_updated_at = 200` while the maximum over the rows
actually written is 100 — a skipped record does influence the Watermark,
refuting the claim at this input. -/
theorem ingest_reviews_skip_influences_watermark :
    (ingest_reviews
        [[("app_id", Jso.str "620"), ("recommendationid", Jso.str "r1"),
          ("timestamp_updated", Jso.num 100)],
         [("app_id", Jso.str "620"), ("timestamp_updated", Jso.num 200)]]
        "620" "L1" 0 true [] []).watermark.max_updated_at = some 200 ∧
    spec_max_updated_at_of_written
      (ingest_reviews
        [[("app_id", Jso.str "620"), ("recommendationid", Jso.str "r1"),
          ("timestamp_updated", Jso.num 100)],
         [("app_id", Jso.str "620"), ("timestamp_updated", Jso.num 200)]]
        "620" "L1" 0 true [] []).state.ledger = some 100 ∧
    (ingest_reviews
        [[("app_id", Jso.str "620"), ("recommendationid", Jso.str "r1"),
          ("timestamp_updated", Jso.num 100)],
         [("app_id", Jso.str "620"), ("timestamp_updated", Jso.num 200)]]
        "620" "L1" 0 true [] []).watermark.max_updated_at ≠
      spec_max_updated_at_of_written
        (ingest_reviews
          [[("app_id", Jso.str "620"), ("recommendationid", Jso.str "r1"),
            ("timestamp_updated", Jso.num 100)],
           [("app_id", Jso.str "620"), ("timestamp_updated", Jso.num 200)]]
          "620" "L1" 0 true [] []).state.ledger := by
  refine ⟨rfl, rfl, by decide⟩

/-- C1 amended: a yielded record lacking `app_id` or `recommendationid` is
indeed never written to the ledger — the ledger gains exactly one row per
record carrying both ids — but such a record still influences the
Watermark: `ingest_reviews` folds `max_updated_at` over the parseable
`timestamp_updated` values of ALL yielded records, skipped ones
included. -/
theorem ingest_reviews_max_over_all_yielded (reviews : List Record)
    (app_id load_id : String) (ingested_at : Int) (conn : Bool)
    (ledger0 : List BronzeRow) (wmTable : List Watermark) :
    (ingest_reviews reviews app_id load_id ingested_at conn ledger0
        wmTable).watermark.max_updated_at
      = reviews.foldl
          (fun m r => foldMaxUpdated m
            (parse_review_timestamp (r.pyGet "timestamp_updated"))) none ∧
    (ingest_reviews reviews app_id load_id ingested_at true ledger0
        wmTable).state.ledger
      = ledger0 ++ reviews.filterMap (fun r =>
          match r.pyGet "app_id", r.pyGet "recommendationid" with
          | some a, some rid =>
            some (bronzeRowOf load_id ingested_at r a rid)
          | _, _ => none) :=
  ⟨foldl_ingestStep_max conn load_id ingested_at reviews
      ⟨[], 0, none, none, ledger0⟩,
   foldl_ingestStep_ledger load_id ingested_at reviews
      ⟨[], 0, none, none, ledger0⟩⟩

/-- C5 counterexample: `insert_into_bronze` has no boolean return value.
On a record lacking `recommendationid` it skips the write but returns
Python `None` (modelled `none`), not `False`; on a record carrying both
ids it writes but again returns `None`, not `True`. -/
theorem insert_into_bronze_returns_none_counterexample :
    (insert_into_bronze [] [("app_id", Jso.str "620")] "L1" 0).2
      ≠ some false ∧
    (insert_into_bronze []
        [("app_id", Jso.str "620"), ("recommendationid", Jso.str "r1")]
        "L1" 0).2 ≠ some true := by
  refine ⟨by decide, by decide⟩

/-- C5 amended: `insert_into_bronze` returns `None` on both paths rather
than a boolean; the skip-versus-write distinction is observable only on
the ledger: a record lacking a resolvable `app_id` or `recommendationid`
leaves the ledger unchanged (a skip, not an error), and a record carrying
both appends exactly one row. -/
theorem insert_into_bronze_skip_semantics (ledger : List BronzeRow)
    (review : Record) (load_id : String) (ingested_at : Int) :
    (insert_into_bronze ledger review load_id ingested_at).2 = none ∧
    ((review.pyGet "app_id" = none ∨ review.pyGet "recommendationid" = none) →
      (insert_into_bronze ledger review load_id ingested_at).1 = ledger) ∧
    (∀ a rid, review.pyGet "app_id" = some a →
      review.pyGet "recommendationid" = some rid →
      (insert_into_bronze ledger review load_id ingested_at).1 =
        ledger ++ [bronzeRowOf load_id ingested_at review a rid]) := by
  refine ⟨?_, ?_, ?_⟩
  · rcases h1 : review.pyGet "app_id" with _ | a <;>
      rcases h2 : review.pyGet "recommendationid" with _ | rid <;>
      simp [insert_into_bronze, h1, h2]
  · rintro (h | h)
    · simp [insert_into_bronze, h]
    · rcases h1 : review.pyGet "app_id" with _ | a <;>
        simp [insert_into_bronze, h, h1]
  · intro a rid h1 h2
    simp [insert_into_bronze, h1, h2, bronzeRowOf]

/-- C5 witness: at a record lacking `recommendationid` the call returns
`None` and leaves an empty ledger empty; at a record with both ids it
returns `None` and appends its row. -/
theorem insert_into_bronze_skip_semantics_witness :
    (insert_into_bronze [] [("app_id", Jso.str "620")] "L1" 5).2 = none ∧
    (insert_into_bronze [] [("app_id", Jso.str "620")] "L1" 5).1 = [] ∧
    (insert_into_bronze []
        [("app_id", Jso.str "620"), ("recommendationid", Jso.str "r1")]
        "L1" 5).1 =
      [bronzeRowOf "L1" 5
        [("app_id", Jso.str "620"), ("recommendationid", Jso.str "r1")]
        (Jso.str "620") (Jso.str "r1")] :=
  ⟨(insert_into_bronze_skip_semantics [] [("app_id", Jso.str "620")]
      "L1" 5).1,
   (insert_into_bronze_skip_semantics [] [("app_id", Jso.str "620")]
      "L1" 5).2.1 (Or.inr rfl),
   (insert_into_bronze_skip_semantics []
      [("app_id", Jso.str "620"), ("recommendationid", Jso.str "r1")]
      "L1" 5).2.2 (Jso.str "620") (Jso.str "r1") rfl rfl⟩

/-- C6: a run of `ingest_reviews` whose page iterator yields zero records
still produces a Watermark with null `last_cursor` and `max_updated_at`,
carrying the run's `load_id` and timestamp, and (with a warehouse
connection) still records it in the watermark table. -/
theorem ingest_reviews_empty_run (app_id load_id : String)
    (ingested_at : Int) (conn : Bool) (ledger0 : List BronzeRow)
    (wmTable : List Watermark) (hconn : conn = true) :
    (ingest_reviews [] app_id load_id ingested_at conn ledger0
        wmTable).watermark
      = ⟨app_id, none, none, load_id, ingested_at⟩ ∧
    (ingest_reviews [] app_id load_id ingested_at conn ledger0
        wmTable).watermarks
      = wmTable ++ [⟨app_id, none, none, load_id, ingested_at⟩] := by
  subst hconn
  exact ⟨rfl, rfl⟩

/-- C6 witness: the empty run for app `"620"`, load id `"L1"`, recorded at
epoch 7, emits and records exactly the null watermark. -/
theorem ingest_reviews_empty_run_witness :
    (ingest_reviews [] "620" "L1" 7 true [] []).watermark
      = ⟨"620", none, none, "L1", 7⟩ ∧
    (ingest_reviews [] "620" "L1" 7 true [] []).watermarks
      = [] ++ [⟨"620", none, none, "L1", 7⟩] :=
  ingest_reviews_empty_run "620" "L1" 7 true [] [] rfl
